import Mathlib

/-!
# Verification of the Snake game core logic

Shallow embedding of the game logic in `src/snake.py`: the `Snake` data type with
its `reset`, `move`, `change_direction` and `check_collision` operations, the
apple rejection-sampling spawner, and the per-tick `Game.update` state machine.

Positions are integer pixel pairs.  Python's global random generator is modelled
by an explicit finite list of seed pairs that the spawner consumes, one pair per
loop iteration (one per `randint` call for each coordinate); exhausting the list
models a run of the unbounded `while True` loop longer than the supplied
randomness, so fallible operations return `Option`.  Python list indexing
`body[0]`, which raises on an empty list, is likewise modelled by `Option`.
-/

namespace SnakeGame

/-- A position: integer `(x, y)` in pixel units, as in the Python tuples. -/
abbrev Pos := Int × Int

/-- `WINDOW_WIDTH = 640` from the source constants. -/
def WINDOW_WIDTH : Int := 640

/-- `WINDOW_HEIGHT = 480` from the source constants. -/
def WINDOW_HEIGHT : Int := 480

/-- `CELL_SIZE = 20` from the source constants. -/
def CELL_SIZE : Int := 20

/-- `UP = (0, -1)` from the source constants. -/
def UP : Pos := (0, -1)

/-- `DOWN = (0, 1)` from the source constants. -/
def DOWN : Pos := (0, 1)

/-- `LEFT = (-1, 0)` from the source constants. -/
def LEFT : Pos := (-1, 0)

/-- `RIGHT = (1, 0)` from the source constants. -/
def RIGHT : Pos := (1, 0)

/-- State of the `Snake` class: `self.body`, `self.direction`, `self.grow`. -/
structure Snake where
  body : List Pos
  direction : Pos
  grow : Bool
deriving DecidableEq, Repr

/-- `Snake.reset`: single-segment body at the board's centre rounded down to a
cell boundary, heading right, growth flag clear.  `//` on positive ints in
Python agrees with `Int` division here. -/
def Snake.reset : Snake :=
  { body := [(WINDOW_WIDTH / 2 / CELL_SIZE * CELL_SIZE,
              WINDOW_HEIGHT / 2 / CELL_SIZE * CELL_SIZE)]
    direction := RIGHT
    grow := false }

/-- `Snake.move`: reads `body[0]` (hence `none` on an empty body, where Python
would raise `IndexError`), prepends the new head, then either pops the tail
(growth flag clear) or clears the growth flag (growth flag set). -/
def Snake.move (s : Snake) : Option Snake :=
  match s.body with
  | [] => none
  | head :: _ =>
    let new_head : Pos :=
      (head.1 + s.direction.1 * CELL_SIZE, head.2 + s.direction.2 * CELL_SIZE)
    let body1 := new_head :: s.body
    if s.grow then
      some { s with body := body1, grow := false }
    else
      some { s with body := body1.dropLast }

/-- `Snake.change_direction`: sets the heading to `new_direction` unless it is
the exact opposite of the current heading, in which case nothing changes. -/
def Snake.change_direction (s : Snake) (new_direction : Pos) : Snake :=
  let opposite : Pos := (-s.direction.1, -s.direction.2)
  if new_direction ≠ opposite then { s with direction := new_direction } else s

/-- `Snake.check_collision`: wall collision (head outside
`[0, WINDOW_WIDTH) × [0, WINDOW_HEIGHT)`) or self collision (head occurs in
`body[1:]`).  Reads `body[0]`, hence `none` on an empty body. -/
def Snake.check_collision (s : Snake) : Option Bool :=
  match s.body with
  | [] => none
  | head :: rest =>
    if head.1 < 0 ∨ head.1 ≥ WINDOW_WIDTH ∨ head.2 < 0 ∨ head.2 ≥ WINDOW_HEIGHT then
      some true
    else if head ∈ rest then
      some true
    else
      some false

/-- Model of Python's `random.randint(lo, hi)` (an external library
collaborator): for `lo ≤ hi` it returns an integer in the inclusive range
`[lo, hi]`; the `seed` argument stands for the state of the global random
generator consumed by the call. -/
def randint (lo hi : Int) (seed : Nat) : Int :=
  lo + (seed : Int) % (hi + 1 - lo)

/-- One iteration of the sampling loop in `Apple.spawn`: the two `randint`
calls of that iteration draw the two components of `seed`. -/
def spawnSample (seed : Nat × Nat) : Pos :=
  (randint 0 ((WINDOW_WIDTH - CELL_SIZE) / CELL_SIZE) seed.1 * CELL_SIZE,
   randint 0 ((WINDOW_HEIGHT - CELL_SIZE) / CELL_SIZE) seed.2 * CELL_SIZE)

/-- The `while True` loop of `Apple.spawn`: keep sampling until the sample is
not on `snake_body`; return the accepted position together with the unconsumed
seeds.  Running out of seeds models a loop run longer than the supplied
randomness. -/
def Apple.spawnLoop (snake_body : List Pos) :
    List (Nat × Nat) → Option (Pos × List (Nat × Nat))
  | [] => none
  | seed :: rest =>
    let p := spawnSample seed
    if p ∈ snake_body then Apple.spawnLoop snake_body rest
    else some (p, rest)

/-- `Apple.spawn(snake_body=None)`: a `None` argument defaults to the empty
list, then the rejection-sampling loop runs. -/
def Apple.spawn (snake_body : Option (List Pos)) (seeds : List (Nat × Nat)) :
    Option (Pos × List (Nat × Nat)) :=
  Apple.spawnLoop (snake_body.getD []) seeds

/-- State of the `Game` class relevant to the core logic: the snake, the
apple's position, `self.score` and `self.game_over`. -/
structure Game where
  snake : Snake
  apple : Pos
  score : Nat
  game_over : Bool
deriving DecidableEq, Repr

/-- `Game.reset`: fresh snake; `Apple.__init__` runs `spawn()` with the default
empty occupied list, then `reset` calls `spawn(self.snake.body)` overwriting
that position; score `0`; game-over flag clear. -/
def Game.reset (seeds : List (Nat × Nat)) : Option (Game × List (Nat × Nat)) :=
  let snake := Snake.reset
  match Apple.spawn none seeds with
  | none => none
  | some (_, seeds1) =>
    match Apple.spawn (some snake.body) seeds1 with
    | none => none
    | some (apple, seeds2) =>
      some ({ snake := snake, apple := apple, score := 0, game_over := false }, seeds2)

/-- `Game.update`: early return when game over; otherwise move the snake, then
if the post-move head `body[0]` equals the apple's position set the growth
flag, increment the score and respawn the apple avoiding the post-move body,
then if `check_collision()` holds set the game-over flag. -/
def Game.update (g : Game) (seeds : List (Nat × Nat)) :
    Option (Game × List (Nat × Nat)) :=
  if g.game_over then
    some (g, seeds)
  else
    match g.snake.move with
    | none => none
    | some snake1 =>
      match snake1.body.head? with
      | none => none
      | some head1 =>
        let afterApple : Option (Game × List (Nat × Nat)) :=
          if head1 = g.apple then
            match Apple.spawn (some snake1.body) seeds with
            | none => none
            | some (apple1, seeds1) =>
              some ({ snake := { snake1 with grow := true }, apple := apple1,
                      score := g.score + 1, game_over := g.game_over }, seeds1)
          else
            some ({ g with snake := snake1 }, seeds)
        match afterApple with
        | none => none
        | some (g1, seeds1) =>
          match g1.snake.check_collision with
          | none => none
          | some c =>
            some (if c then { g1 with game_over := true } else g1, seeds1)

/-- The four direction keys recognised by `Game.handle_events`
(arrow keys and WASD collapse to the same four directions). -/
inductive Key
  | up
  | down
  | left
  | right
deriving DecidableEq, Repr

/-- The direction passed to `change_direction` for each key. -/
def Key.dir : Key → Pos
  | .up => UP
  | .down => DOWN
  | .left => LEFT
  | .right => RIGHT

/-- One `KEYDOWN` direction event as handled by `Game.handle_events`: ignored
when the game is over, otherwise forwarded to `change_direction`. -/
def Game.handleKey (g : Game) (k : Key) : Game :=
  if g.game_over then g
  else { g with snake := g.snake.change_direction k.dir }

/-- All queued direction events of one frame, in order, as drained by the
`for event in pygame.event.get()` loop. -/
def Game.handleKeys (g : Game) (ks : List Key) : Game :=
  ks.foldl Game.handleKey g

/-- Trace semantics of `Game.run`'s loop restricted to direction input: each
frame handles its queued key events and then calls `update`.  The result is the
sequence of headings actually used by the `move()` inside each effective tick
(game-over ticks move nothing).  A failed update (randomness exhausted) ends
the trace. -/
def runFrames : Game → List (Nat × Nat) → List (List Key) → List Pos
  | _, _, [] => []
  | g, seeds, ks :: fs =>
    let g1 := g.handleKeys ks
    match Game.update g1 seeds with
    | none => []
    | some (g2, seeds2) =>
      if g1.game_over then runFrames g2 seeds2 fs
      else g1.snake.direction :: runFrames g2 seeds2 fs

/-- `b` is the exact opposite vector of `a`. -/
def isOpposite (a b : Pos) : Bool :=
  decide (b = (-a.1, -a.2))

/-- No two adjacent entries of the list are exact opposites. -/
def noRevB : List Pos → Bool
  | a :: b :: rest => !isOpposite a b && noRevB (b :: rest)
  | _ => true

example : Snake.reset.body = [(320, 240)] := by decide
example : Snake.reset.check_collision = some false := by decide
example : Apple.spawn (some [(0, 0)]) [(0, 0), (1, 1)] = some ((20, 20), []) := by decide
example : (Game.reset [(0, 0), (1, 1)]).isSome = true := by decide

/-! ## Helper lemmas -/

/-- Closed form of `move` on a non-empty body. -/
lemma Snake.move_eq (s : Snake) (h : Pos) (t : List Pos) (hb : s.body = h :: t) :
    s.move = some
      { body :=
          if s.grow then
            (h.1 + s.direction.1 * CELL_SIZE, h.2 + s.direction.2 * CELL_SIZE) :: h :: t
          else
            ((h.1 + s.direction.1 * CELL_SIZE, h.2 + s.direction.2 * CELL_SIZE) :: h :: t).dropLast
        direction := s.direction
        grow := false } := by
  obtain ⟨b, d, gr⟩ := s
  simp only [Snake.body] at hb
  subst hb
  cases gr <;> simp [Snake.move]

/-- `check_collision` depends only on the body. -/
lemma Snake.check_collision_congr (s1 s2 : Snake) (hb : s1.body = s2.body) :
    s1.check_collision = s2.check_collision := by
  obtain ⟨b1, d1, g1⟩ := s1
  obtain ⟨b2, d2, g2⟩ := s2
  simp only [Snake.body] at hb
  subst hb
  rfl

/-- A successfully spawned position avoids the occupied list and is one of the
loop's samples. -/
lemma Apple.spawnLoop_eq_some (snake_body : List Pos) :
    ∀ (seeds : List (Nat × Nat)) (p : Pos) (rest : List (Nat × Nat)),
      Apple.spawnLoop snake_body seeds = some (p, rest) →
      p ∉ snake_body ∧ ∃ seed, p = spawnSample seed := by
  intro seeds
  induction seeds with
  | nil =>
    intro p rest hp
    simp [Apple.spawnLoop] at hp
  | cons seed rest ih =>
    intro p r hp
    simp only [Apple.spawnLoop] at hp
    by_cases hmem : spawnSample seed ∈ snake_body
    · rw [if_pos hmem] at hp
      exact ih p r hp
    · rw [if_neg hmem] at hp
      simp only [Option.some.injEq, Prod.mk.injEq] at hp
      obtain ⟨rfl, rfl⟩ := hp
      exact ⟨hmem, seed, rfl⟩

/-- Every sample of the spawn loop is grid-aligned and within board bounds. -/
lemma spawnSample_aligned_inbounds (seed : Nat × Nat) :
    (spawnSample seed).1 % CELL_SIZE = 0 ∧ (spawnSample seed).2 % CELL_SIZE = 0 ∧
    0 ≤ (spawnSample seed).1 ∧ (spawnSample seed).1 < WINDOW_WIDTH ∧
    0 ≤ (spawnSample seed).2 ∧ (spawnSample seed).2 < WINDOW_HEIGHT := by
  obtain ⟨a, b⟩ := seed
  simp only [spawnSample, randint, WINDOW_WIDTH, WINDOW_HEIGHT, CELL_SIZE]
  norm_num
  omega

/-- `move` never changes the heading. -/
lemma Snake.move_direction (s s' : Snake) (hm : s.move = some s') :
    s'.direction = s.direction := by
  cases hb : s.body with
  | nil => simp [Snake.move, hb] at hm
  | cons h t =>
    rw [Snake.move_eq s h t hb] at hm
    cases hm
    rfl

/-- `move` always leaves the growth flag clear. -/
lemma Snake.move_grow (s s' : Snake) (hm : s.move = some s') : s'.grow = false := by
  cases hb : s.body with
  | nil => simp [Snake.move, hb] at hm
  | cons h t =>
    rw [Snake.move_eq s h t hb] at hm
    cases hm
    rfl

/-- The post-move body is the new head consed on the old body, with the tail
dropped when the growth flag was clear; in particular it is non-empty. -/
lemma Snake.move_body (s s' : Snake) (h : Pos) (t : List Pos) (hb : s.body = h :: t)
    (hm : s.move = some s') :
    ∃ t', s'.body =
      (h.1 + s.direction.1 * CELL_SIZE, h.2 + s.direction.2 * CELL_SIZE) :: t' ∧
      (t' = s.body ∨ t' = s.body.dropLast) := by
  rw [Snake.move_eq s h t hb] at hm
  cases hm
  cases hg : s.grow <;> simp [hg, hb, List.dropLast]

/-- `check_collision` succeeds on every non-empty body. -/
lemma Snake.check_collision_total (s : Snake) (h : Pos) (t : List Pos)
    (hb : s.body = h :: t) : ∃ b, s.check_collision = some b := by
  simp only [Snake.check_collision, hb]
  split_ifs <;> exact ⟨_, rfl⟩

/-- `update` early-returns once the game-over flag is set (helper form). -/
lemma Game.update_of_game_over (g : Game) (seeds : List (Nat × Nat))
    (h : g.game_over = true) : Game.update g seeds = some (g, seeds) := by
  simp [Game.update, h]

/-- Complete case analysis of a successful `update` in the playing state:
the snake moved, the apple branch ran against the post-move head, and the
game-over flag is exactly the post-move collision result. -/
lemma Game.update_cases (g : Game) (seeds : List (Nat × Nat)) (g' : Game)
    (rest : List (Nat × Nat)) (hover : g.game_over = false)
    (hupd : Game.update g seeds = some (g', rest)) :
    ∃ snake1 h1 t1 c,
      g.snake.move = some snake1 ∧ snake1.body = h1 :: t1 ∧
      snake1.check_collision = some c ∧
      ((h1 = g.apple ∧
         ∃ apple1, Apple.spawn (some snake1.body) seeds = some (apple1, rest) ∧
           g' = { snake := { snake1 with grow := true }, apple := apple1,
                  score := g.score + 1, game_over := c }) ∨
       (h1 ≠ g.apple ∧ rest = seeds ∧
         g' = { snake := snake1, apple := g.apple, score := g.score,
                game_over := c })) := by
  simp only [Game.update, hover, Bool.false_eq_true, if_false] at hupd
  cases hm : g.snake.move with
  | none =>
    simp only [hm] at hupd
    exact Option.noConfusion hupd
  | some snake1 =>
    simp only [hm] at hupd
    cases hb : snake1.body with
    | nil =>
      simp only [hb, List.head?] at hupd
      exact Option.noConfusion hupd
    | cons h1 t1 =>
      simp only [hb, List.head?] at hupd
      obtain ⟨c, hc⟩ := Snake.check_collision_total snake1 h1 t1 hb
      have hcc : (Snake.mk (h1 :: t1) snake1.direction true).check_collision = some c :=
        (Snake.check_collision_congr _ snake1 hb.symm).trans hc
      by_cases heat : h1 = g.apple
      · simp only [if_pos heat] at hupd
        cases hs : Apple.spawn (some (h1 :: t1)) seeds with
        | none =>
          simp only [hs] at hupd
          exact Option.noConfusion hupd
        | some pr =>
          obtain ⟨apple1, seeds1⟩ := pr
          simp only [hs, hcc] at hupd
          simp only [Option.some.injEq, Prod.mk.injEq] at hupd
          obtain ⟨hg', hrest⟩ := hupd
          subst hg'
          subst hrest
          refine ⟨snake1, h1, t1, c, rfl, hb, hc, Or.inl ⟨heat, apple1, ?_, ?_⟩⟩
          · rw [hb]
            exact hs
          · cases c <;> simp [hb]
      · simp only [if_neg heat] at hupd
        simp only [hc] at hupd
        simp only [Option.some.injEq, Prod.mk.injEq] at hupd
        obtain ⟨hg', hrest⟩ := hupd
        subst hg'
        refine ⟨snake1, h1, t1, c, rfl, hb, hc, Or.inr ⟨heat, hrest.symm, ?_⟩⟩
        cases c <;> rfl

/-- Closed characterisation of a successful `Game.reset`. -/
lemma Game.reset_spec (seeds : List (Nat × Nat)) (g : Game) (rest : List (Nat × Nat))
    (h : Game.reset seeds = some (g, rest)) :
    g.snake = Snake.reset ∧ g.score = 0 ∧ g.game_over = false ∧
    g.apple ∉ g.snake.body := by
  simp only [Game.reset] at h
  cases h1 : Apple.spawn none seeds with
  | none =>
    simp only [h1] at h
    exact Option.noConfusion h
  | some pr =>
    obtain ⟨a0, seeds1⟩ := pr
    simp only [h1] at h
    cases h2 : Apple.spawn (some Snake.reset.body) seeds1 with
    | none =>
      simp only [h2] at h
      exact Option.noConfusion h
    | some pr2 =>
      obtain ⟨apple, seeds2⟩ := pr2
      simp only [h2, Option.some.injEq, Prod.mk.injEq] at h
      obtain ⟨hg, hrest⟩ := h
      subst hg
      exact ⟨rfl, rfl, rfl, (Apple.spawnLoop_eq_some _ _ _ _ h2).1⟩

/-! ## Claim theorems -/

/-- C2: `move` sets the new head to the old head plus the current heading
scaled by the cell size and prepends it to the body; if the growth flag was
clear the last element is removed and the length is unchanged; if it was set
the tail is kept, the length grows by exactly one, and the flag is cleared. -/
theorem C2_move (s : Snake) (h : Pos) (t : List Pos) (hb : s.body = h :: t) :
    ∃ s', s.move = some s' ∧
      s'.body.head? =
        some (h.1 + s.direction.1 * CELL_SIZE, h.2 + s.direction.2 * CELL_SIZE) ∧
      s'.direction = s.direction ∧
      (s.grow = false →
        s'.body =
          ((h.1 + s.direction.1 * CELL_SIZE, h.2 + s.direction.2 * CELL_SIZE)
            :: s.body).dropLast ∧
        s'.body.length = s.body.length ∧ s'.grow = false) ∧
      (s.grow = true →
        s'.body =
          (h.1 + s.direction.1 * CELL_SIZE, h.2 + s.direction.2 * CELL_SIZE) :: s.body ∧
        s'.body.length = s.body.length + 1 ∧ s'.grow = false) := by
  refine ⟨_, Snake.move_eq s h t hb, ?_, rfl, ?_, ?_⟩
  · cases hg : s.grow <;> simp [hg, hb, List.dropLast]
  · intro hg
    simp [hg, hb, List.length_dropLast]
  · intro hg
    simp [hg, hb]

/-- Witness for C2: one-segment snake at the centre heading right, growth
clear: the body shifts one cell right and keeps length one. -/
theorem C2_move_witness :
    ∃ s', Snake.reset.move = some s' ∧
      s'.body.head? = some (320 + 1 * CELL_SIZE, 240 + 0 * CELL_SIZE) ∧
      s'.direction = Snake.reset.direction ∧
      (Snake.reset.grow = false →
        s'.body = ((320 + 1 * CELL_SIZE, 240 + 0 * CELL_SIZE) :: Snake.reset.body).dropLast ∧
        s'.body.length = Snake.reset.body.length ∧ s'.grow = false) ∧
      (Snake.reset.grow = true →
        s'.body = (320 + 1 * CELL_SIZE, 240 + 0 * CELL_SIZE) :: Snake.reset.body ∧
        s'.body.length = Snake.reset.body.length + 1 ∧ s'.grow = false) :=
  C2_move Snake.reset (320, 240) [] rfl

/-- C8: `change_direction(d)` leaves the heading unchanged when `d` is the
exact opposite of the current heading, and sets the heading to `d` otherwise;
the function is total, so no error is signalled in the rejected case. -/
theorem C8_change_direction (s : Snake) (d : Pos) :
    (d = (-s.direction.1, -s.direction.2) →
      (s.change_direction d).direction = s.direction) ∧
    (d ≠ (-s.direction.1, -s.direction.2) →
      (s.change_direction d).direction = d) := by
  constructor <;> intro hd <;> simp [Snake.change_direction, hd]

/-- Witness for C8: heading right, attempt left: heading remains right. -/
theorem C8_change_direction_witness :
    ((Snake.mk [(320, 240)] RIGHT false).change_direction LEFT).direction
      = (Snake.mk [(320, 240)] RIGHT false).direction :=
  (C8_change_direction (Snake.mk [(320, 240)] RIGHT false) LEFT).1 (by decide)

/-- C3: `check_collision` returns true iff the head's x lies outside
`[0, WINDOW_WIDTH)` or its y lies outside `[0, WINDOW_HEIGHT)` or the head
equals some body element at index 1 or later; it returns false otherwise
(in particular it always returns on a non-empty body), and it returns false
for a freshly reset snake.  As embedded it is a pure function of the state. -/
theorem C3_check_collision (s : Snake) (h : Pos) (t : List Pos) (hb : s.body = h :: t) :
    (s.check_collision = some true ↔
      (h.1 < 0 ∨ h.1 ≥ WINDOW_WIDTH ∨ h.2 < 0 ∨ h.2 ≥ WINDOW_HEIGHT ∨ h ∈ t)) ∧
    (s.check_collision = some false ↔
      ¬(h.1 < 0 ∨ h.1 ≥ WINDOW_WIDTH ∨ h.2 < 0 ∨ h.2 ≥ WINDOW_HEIGHT ∨ h ∈ t)) ∧
    Snake.reset.check_collision = some false := by
  refine ⟨?_, ?_, by decide⟩
  all_goals simp only [Snake.check_collision, hb]
  all_goals split_ifs with h1 h2
  all_goals simp_all
  all_goals first | tauto | omega

/-- Witness for C3: a head past the right wall collides. -/
theorem C3_check_collision_witness :
    (Snake.mk [(650, 0)] RIGHT false).check_collision = some true :=
  (C3_check_collision (Snake.mk [(650, 0)] RIGHT false) (650, 0) [] rfl).1.mpr
    (by decide)

/-- C4: whenever `spawn` returns, the position is grid-aligned (both
coordinates multiples of the cell size), within board bounds, and not in the
occupied list; an omitted occupied argument defaults to the empty list. -/
theorem C4_spawn (occ : Option (List Pos)) (seeds : List (Nat × Nat))
    (p : Pos) (rest : List (Nat × Nat))
    (_hfree : ∃ q : Pos, q.1 % CELL_SIZE = 0 ∧ q.2 % CELL_SIZE = 0 ∧
      0 ≤ q.1 ∧ q.1 < WINDOW_WIDTH ∧ 0 ≤ q.2 ∧ q.2 < WINDOW_HEIGHT ∧
      q ∉ occ.getD [])
    (h : Apple.spawn occ seeds = some (p, rest)) :
    p.1 % CELL_SIZE = 0 ∧ p.2 % CELL_SIZE = 0 ∧
    0 ≤ p.1 ∧ p.1 < WINDOW_WIDTH ∧ 0 ≤ p.2 ∧ p.2 < WINDOW_HEIGHT ∧
    p ∉ occ.getD [] ∧
    Apple.spawn none seeds = Apple.spawn (some []) seeds := by
  obtain ⟨hmem, seed, rfl⟩ := Apple.spawnLoop_eq_some (occ.getD []) seeds p rest h
  obtain ⟨a1, a2, a3, a4, a5, a6⟩ := spawnSample_aligned_inbounds seed
  exact ⟨a1, a2, a3, a4, a5, a6, hmem, rfl⟩

/-- Witness for C4 on the occupied list `[(0, 0)]` with two seeds: the first
sample collides with the occupied cell, the second lands on `(20, 20)`. -/
theorem C4_spawn_witness :
    Apple.spawn (some [((0 : Int), (0 : Int))]) [(0, 0), (1, 1)] =
      some ((20, 20), []) ∧
    ((20 : Int) % CELL_SIZE = 0 ∧ (20 : Int) % CELL_SIZE = 0 ∧
      0 ≤ (20 : Int) ∧ (20 : Int) < WINDOW_WIDTH ∧
      0 ≤ (20 : Int) ∧ (20 : Int) < WINDOW_HEIGHT ∧
      ((20 : Int), (20 : Int)) ∉
        ((some [((0 : Int), (0 : Int))] : Option (List Pos)).getD []) ∧
      Apple.spawn none [(0, 0), (1, 1)] = Apple.spawn (some []) [(0, 0), (1, 1)]) :=
  ⟨by decide, C4_spawn (some [(0, 0)]) [(0, 0), (1, 1)] (20, 20) []
    ⟨(20, 20), by decide⟩ (by decide)⟩

/-- C7: once the game-over flag is set, `update` is a no-op: it returns the
whole state (snake body, heading, growth flag, apple, score, flag) and the
randomness unchanged. -/
theorem C7_update_noop (g : Game) (seeds : List (Nat × Nat))
    (h : g.game_over = true) :
    Game.update g seeds = some (g, seeds) :=
  Game.update_of_game_over g seeds h

/-- Witness for C7 on a concrete game-over state. -/
theorem C7_update_noop_witness :
    Game.update (Game.mk Snake.reset (0, 0) 5 true) [] =
      some (Game.mk Snake.reset (0, 0) 5 true, []) :=
  C7_update_noop (Game.mk Snake.reset (0, 0) 5 true) [] rfl

/-- C9: after a successful `Game.reset` the state is fully reinitialised: a
single-cell body at the board's centre rounded down to a cell boundary,
heading right, growth clear, score 0, game-over clear, and an apple placed
off the snake's body. -/
theorem C9_reset (seeds : List (Nat × Nat)) (g : Game) (rest : List (Nat × Nat))
    (h : Game.reset seeds = some (g, rest)) :
    g.snake.body = [(WINDOW_WIDTH / 2 / CELL_SIZE * CELL_SIZE,
                     WINDOW_HEIGHT / 2 / CELL_SIZE * CELL_SIZE)] ∧
    g.snake.direction = RIGHT ∧ g.snake.grow = false ∧
    g.score = 0 ∧ g.game_over = false ∧ g.apple ∉ g.snake.body := by
  obtain ⟨hs, hsc, hgo, hap⟩ := Game.reset_spec seeds g rest h
  rw [hs] at hap ⊢
  exact ⟨rfl, rfl, rfl, hsc, hgo, hap⟩

/-- Witness for C9 on concrete seeds. -/
theorem C9_reset_witness :
    Game.reset [(0, 0), (1, 1)] = some (Game.mk Snake.reset (20, 20) 0 false, []) ∧
    ((Game.mk Snake.reset (20, 20) 0 false).snake.body =
        [(WINDOW_WIDTH / 2 / CELL_SIZE * CELL_SIZE,
          WINDOW_HEIGHT / 2 / CELL_SIZE * CELL_SIZE)] ∧
      (Game.mk Snake.reset (20, 20) 0 false).snake.direction = RIGHT ∧
      (Game.mk Snake.reset (20, 20) 0 false).snake.grow = false ∧
      (Game.mk Snake.reset (20, 20) 0 false).score = 0 ∧
      (Game.mk Snake.reset (20, 20) 0 false).game_over = false ∧
      (Game.mk Snake.reset (20, 20) 0 false).apple ∉
        (Game.mk Snake.reset (20, 20) 0 false).snake.body) :=
  ⟨by decide, C9_reset [(0, 0), (1, 1)] _ [] (by decide)⟩

/-- C10: the body is non-empty after reset and is kept non-empty by
`change_direction`, `move` and `update`, so every `body[0]` access is defined:
`move` and `check_collision` succeed on any non-empty body. -/
theorem C10_body_nonempty :
    Snake.reset.body ≠ [] ∧
    (∀ (s : Snake) (d : Pos), s.body ≠ [] → (s.change_direction d).body ≠ []) ∧
    (∀ s : Snake, s.body ≠ [] → ∃ s', s.move = some s' ∧ s'.body ≠ []) ∧
    (∀ s : Snake, s.body ≠ [] → ∃ b, s.check_collision = some b) ∧
    (∀ (g : Game) (seeds : List (Nat × Nat)) (g' : Game) (rest : List (Nat × Nat)),
      g.snake.body ≠ [] → Game.update g seeds = some (g', rest) →
      g'.snake.body ≠ []) := by
  refine ⟨by decide, ?_, ?_, ?_, ?_⟩
  · intro s d hs
    simp only [Snake.change_direction]
    split <;> simpa using hs
  · intro s hs
    obtain ⟨h, t, hb⟩ := List.exists_cons_of_ne_nil hs
    refine ⟨_, Snake.move_eq s h t hb, ?_⟩
    cases hg : s.grow <;> simp [hg, List.dropLast]
  · intro s hs
    obtain ⟨h, t, hb⟩ := List.exists_cons_of_ne_nil hs
    exact Snake.check_collision_total s h t hb
  · intro g seeds g' rest hg hupd
    cases hover : g.game_over with
    | true =>
      rw [Game.update_of_game_over g seeds hover] at hupd
      simp only [Option.some.injEq, Prod.mk.injEq] at hupd
      obtain ⟨h1, h2⟩ := hupd
      subst h1
      exact hg
    | false =>
      obtain ⟨snake1, h1, t1, c, hm, hb, hc, hcase⟩ :=
        Game.update_cases g seeds g' rest hover hupd
      rcases hcase with ⟨_, apple1, _, rfl⟩ | ⟨_, _, rfl⟩ <;> simp [hb]

/-- Witness for C10: `move` succeeds on the reset snake with non-empty result. -/
theorem C10_body_nonempty_witness :
    ∃ s', Snake.reset.move = some s' ∧ s'.body ≠ [] :=
  C10_body_nonempty.2.2.1 Snake.reset (by decide)

/-- Observable game states: states produced by a successful `reset` (program
start or restart), and anything reachable from an observable state through key
events and successful updates. -/
inductive Reachable : Game → Prop
  | reset (seeds : List (Nat × Nat)) (g : Game) (rest : List (Nat × Nat)) :
      Game.reset seeds = some (g, rest) → Reachable g
  | key (g : Game) (k : Key) : Reachable g → Reachable (g.handleKey k)
  | tick (g : Game) (seeds : List (Nat × Nat)) (g' : Game)
      (rest : List (Nat × Nat)) :
      Reachable g → Game.update g seeds = some (g', rest) → Reachable g'

/-- C6: at every observable point — after `Game.reset` completes and after
each `Game.update` completes (key handling in between touches neither body
nor apple) — the apple's position is not on the snake's body. -/
theorem C6_apple_off_body (g : Game) (hreach : Reachable g) :
    g.apple ∉ g.snake.body := by
  induction hreach with
  | reset seeds g rest h =>
    exact (Game.reset_spec seeds g rest h).2.2.2
  | key g k hg ih =>
    simp only [Game.handleKey]
    split
    · exact ih
    · show g.apple ∉ (g.snake.change_direction k.dir).body
      have hbody : (g.snake.change_direction k.dir).body = g.snake.body := by
        simp only [Snake.change_direction]
        split <;> rfl
      rw [hbody]
      exact ih
  | tick g seeds g' rest hg hupd ih =>
    cases hover : g.game_over with
    | true =>
      rw [Game.update_of_game_over g seeds hover] at hupd
      simp only [Option.some.injEq, Prod.mk.injEq] at hupd
      obtain ⟨h1, h2⟩ := hupd
      subst h1
      exact ih
    | false =>
      obtain ⟨snake1, h1, t1, c, hm, hb, hc, hcase⟩ :=
        Game.update_cases g seeds g' rest hover hupd
      rcases hcase with ⟨heat, apple1, hs, rfl⟩ | ⟨hneq, hrest, rfl⟩
      · exact (Apple.spawnLoop_eq_some snake1.body seeds apple1 rest hs).1
      · cases hgb : g.snake.body with
        | nil => simp [Snake.move, hgb] at hm
        | cons gh gt =>
          obtain ⟨t', hbody', ht'⟩ := Snake.move_body g.snake snake1 gh gt hgb hm
          rw [hb] at hbody'
          injection hbody' with hh ht
          intro hmem
          rw [hb] at hmem
          rcases List.mem_cons.mp hmem with heq | hmem'
          · exact hneq heq.symm
          · rw [ht] at hmem'
            rcases ht' with rfl | rfl
            · exact ih hmem'
            · exact ih (List.mem_of_mem_dropLast hmem')

/-- The four direction constants. -/
def dirs : List Pos := [UP, DOWN, LEFT, RIGHT]

/-- Each key requests one of the four directions. -/
lemma Key.dir_mem (k : Key) : k.dir ∈ dirs := by
  cases k <;> decide

/-- None of the four directions is its own opposite. -/
lemma self_not_opp (p : Pos) (hp : p ∈ dirs) : isOpposite p p = false := by
  simp only [dirs] at hp
  fin_cases hp <;> decide

/-- One `change_direction` call keeps the heading among the four directions
and never produces the exact opposite of the pre-call heading. -/
lemma change_direction_facts (s : Snake) (k : Key) (hdir : s.direction ∈ dirs) :
    (s.change_direction k.dir).direction ∈ dirs ∧
    isOpposite s.direction (s.change_direction k.dir).direction = false := by
  simp only [Snake.change_direction]
  split
  next hcond =>
    constructor
    · exact k.dir_mem
    · simpa [isOpposite] using hcond
  next hcond =>
    exact ⟨hdir, self_not_opp s.direction hdir⟩

/-- `handleKey` keeps the heading among the four directions and never makes
it the exact opposite of what it was before the event. -/
lemma handleKey_dir_facts (g : Game) (k : Key) (hdir : g.snake.direction ∈ dirs) :
    (g.handleKey k).snake.direction ∈ dirs ∧
    isOpposite g.snake.direction (g.handleKey k).snake.direction = false := by
  simp only [Game.handleKey]
  split
  · exact ⟨hdir, self_not_opp g.snake.direction hdir⟩
  · exact change_direction_facts g.snake k hdir

/-- `handleKey` does not touch the game-over flag. -/
lemma handleKey_game_over (g : Game) (k : Key) :
    (g.handleKey k).game_over = g.game_over := by
  simp only [Game.handleKey]
  split <;> rfl

/-- Key events are ignored once the game is over. -/
lemma handleKeys_of_game_over (g : Game) (ks : List Key) (h : g.game_over = true) :
    g.handleKeys ks = g := by
  induction ks with
  | nil => rfl
  | cons k ks ih =>
    have hk : g.handleKey k = g := by simp [Game.handleKey, h]
    simp only [Game.handleKeys, List.foldl_cons] at ih ⊢
    rw [hk]
    exact ih

/-- `update` never changes the heading. -/
lemma Game.update_direction (g : Game) (seeds : List (Nat × Nat)) (g' : Game)
    (rest : List (Nat × Nat)) (hupd : Game.update g seeds = some (g', rest)) :
    g'.snake.direction = g.snake.direction := by
  cases hover : g.game_over with
  | true =>
    rw [Game.update_of_game_over g seeds hover] at hupd
    simp only [Option.some.injEq, Prod.mk.injEq] at hupd
    obtain ⟨h1, _⟩ := hupd
    subst h1
    rfl
  | false =>
    obtain ⟨snake1, h1, t1, c, hm, hb, hc, hcase⟩ :=
      Game.update_cases g seeds g' rest hover hupd
    have hd := Snake.move_direction g.snake snake1 hm
    rcases hcase with ⟨_, _, _, rfl⟩ | ⟨_, _, rfl⟩ <;> exact hd

/-- After the game-over flag is set, no frame ever records a move. -/
lemma runFrames_of_game_over (fs : List (List Key)) :
    ∀ (g : Game) (seeds : List (Nat × Nat)), g.game_over = true →
      runFrames g seeds fs = [] := by
  induction fs with
  | nil => intro g seeds h; rfl
  | cons ks fs ih =>
    intro g seeds h
    simp only [runFrames, handleKeys_of_game_over g ks h,
      Game.update_of_game_over g seeds h, h, if_true]
    exact ih g seeds h

/-- Unfolding equation for `noRevB` on two or more entries. -/
lemma noRevB_cons_cons (a b : Pos) (l : List Pos) :
    noRevB (a :: b :: l) = (!isOpposite a b && noRevB (b :: l)) := rfl

/-- Trace induction: starting from a heading among the four directions, if at
most one direction key is queued per frame, the heading sequence used by the
moves, prefixed with the starting heading, has no adjacent exact reversal. -/
lemma runFrames_noRev (fs : List (List Key)) :
    ∀ (g : Game) (seeds : List (Nat × Nat)),
      g.snake.direction ∈ dirs →
      (∀ ks ∈ fs, ks.length ≤ 1) →
      noRevB (g.snake.direction :: runFrames g seeds fs) = true := by
  induction fs with
  | nil => intro g seeds hdir hfs; rfl
  | cons ks fs ih =>
    intro g seeds hdir hfs
    have hks : ks.length ≤ 1 := hfs ks (List.mem_cons_self ks fs)
    have hfs' : ∀ ks' ∈ fs, ks'.length ≤ 1 :=
      fun ks' hk => hfs ks' (List.mem_cons_of_mem _ hk)
    have hdir1 : (g.handleKeys ks).snake.direction ∈ dirs ∧
        isOpposite g.snake.direction (g.handleKeys ks).snake.direction = false := by
      match ks, hks with
      | [], _ => exact ⟨hdir, self_not_opp g.snake.direction hdir⟩
      | [k], _ => exact handleKey_dir_facts g k hdir
      | k1 :: k2 :: ks', hlen => simp at hlen
    simp only [runFrames]
    cases hu : Game.update (g.handleKeys ks) seeds with
    | none => rfl
    | some pr =>
      obtain ⟨g2, seeds2⟩ := pr
      have hdir2 : g2.snake.direction = (g.handleKeys ks).snake.direction :=
        Game.update_direction (g.handleKeys ks) seeds g2 seeds2 hu
      cases hgo : (g.handleKeys ks).game_over with
      | true =>
        rw [Game.update_of_game_over (g.handleKeys ks) seeds hgo] at hu
        simp only [Option.some.injEq, Prod.mk.injEq] at hu
        obtain ⟨hg2, _⟩ := hu
        simp only [if_true]
        rw [runFrames_of_game_over fs g2 seeds2 (by rw [← hg2]; exact hgo)]
        rfl
      | false =>
        simp only [Bool.false_eq_true, if_false]
        rw [noRevB_cons_cons]
        have hrest := ih g2 seeds2 (hdir2 ▸ hdir1.1) hfs'
        rw [hdir2] at hrest
        rw [hdir1.2, hrest]
        rfl

/-- C5 counterexample: from a concrete reset, queueing two direction keys
(up then left) in the frame after a rightward move makes the next move use
the exact opposite heading, so the claimed invariant fails on this trace. -/
theorem C5_counterexample :
    (Game.reset [(0, 0), (1, 1)]).map
      (fun p => noRevB (runFrames p.1 p.2 [[], [Key.up, Key.left]])) =
      some false := by
  decide

/-- C5 (amended): a single `change_direction` per tick cannot reverse: if at
most one direction key event is queued in each frame, no two adjacent moves
of the whole trace use exactly opposite headings.  (With two or more queued
key events in one frame the original claim fails, as the counterexample
shows.) -/
theorem C5_no_reversal (seeds : List (Nat × Nat)) (g0 : Game)
    (rest : List (Nat × Nat)) (fs : List (List Key))
    (hreset : Game.reset seeds = some (g0, rest))
    (hfs : ∀ ks ∈ fs, ks.length ≤ 1) :
    noRevB (runFrames g0 rest fs) = true := by
  have hsnake := (Game.reset_spec seeds g0 rest hreset).1
  have hdir : g0.snake.direction ∈ dirs := by
    rw [hsnake]
    decide
  have h := runFrames_noRev fs g0 rest hdir hfs
  cases hl : runFrames g0 rest fs with
  | nil => rfl
  | cons a l =>
    rw [hl] at h
    rw [noRevB_cons_cons] at h
    exact (Bool.and_eq_true _ _ |>.mp h).2

/-- Witness for C5 (amended): one key per frame on a concrete trace. -/
theorem C5_no_reversal_witness :
    Game.reset [(0, 0), (1, 1)] = some (Game.mk Snake.reset (20, 20) 0 false, []) ∧
    noRevB (runFrames (Game.mk Snake.reset (20, 20) 0 false) []
      [[Key.up], [Key.left]]) = true :=
  ⟨by decide, C5_no_reversal [(0, 0), (1, 1)] (Game.mk Snake.reset (20, 20) 0 false)
    [] [[Key.up], [Key.left]] (by decide) (by decide)⟩

/-- C1: in the Playing state a tick moves the snake first; apple-eat is then
judged against the post-move head (growth set, score up by exactly one, apple
respawned off the post-move body), and collision is judged against the same
post-move head to decide the game-over flag. -/
theorem C1_update_order (g : Game) (seeds : List (Nat × Nat)) (g' : Game)
    (rest : List (Nat × Nat)) (s1 : Snake) (h1 : Pos)
    (hplay : g.game_over = false)
    (hmove : g.snake.move = some s1)
    (hhead : s1.body.head? = some h1)
    (hupd : Game.update g seeds = some (g', rest)) :
    g'.snake.body = s1.body ∧
    g'.snake.direction = s1.direction ∧
    (g'.snake.grow = true ↔ h1 = g.apple) ∧
    g'.score = (if h1 = g.apple then g.score + 1 else g.score) ∧
    (h1 = g.apple →
      Apple.spawn (some s1.body) seeds = some (g'.apple, rest) ∧
      g'.apple ∉ s1.body) ∧
    (h1 ≠ g.apple → g'.apple = g.apple ∧ rest = seeds) ∧
    (g'.game_over = true ↔ s1.check_collision = some true) := by
  obtain ⟨snake1, h1', t1', c, hm, hb, hc, hcase⟩ :=
    Game.update_cases g seeds g' rest hplay hupd
  rw [hmove] at hm
  injection hm with hm1
  subst hm1
  rw [hb] at hhead
  simp only [List.head?, Option.some.injEq] at hhead
  subst hhead
  have hgrow := Snake.move_grow g.snake s1 hmove
  rcases hcase with ⟨heat, apple1, hs, rfl⟩ | ⟨hneq, hrest, rfl⟩
  · refine ⟨rfl, rfl, by simp [heat], by simp [heat], ?_, ?_, ?_⟩
    · intro _
      exact ⟨hs, (Apple.spawnLoop_eq_some s1.body seeds apple1 rest hs).1⟩
    · intro hneq
      exact absurd heat hneq
    · cases c <;> simp [hc]
  · refine ⟨rfl, rfl, by simp [hgrow, hneq], by simp [hneq], ?_, ?_, ?_⟩
    · intro heat
      exact absurd heat hneq
    · intro _
      exact ⟨rfl, hrest⟩
    · cases c <;> simp [hc]

/-- Witness for C1: a concrete non-eating tick from the reset state. -/
theorem C1_update_order_witness :
    (Game.mk (Snake.mk [(340, 240)] RIGHT false) (20, 20) 0 false).snake.body =
      (Snake.mk [(340, 240)] RIGHT false).body :=
  (C1_update_order (Game.mk Snake.reset (20, 20) 0 false) []
    (Game.mk (Snake.mk [(340, 240)] RIGHT false) (20, 20) 0 false) []
    (Snake.mk [(340, 240)] RIGHT false) (340, 240)
    rfl (by decide) rfl (by decide)).1

/-- Witness for C6: the invariant at a concrete observable state. -/
theorem C6_apple_off_body_witness :
    (Game.mk Snake.reset (20, 20) 0 false).apple ∉
      (Game.mk Snake.reset (20, 20) 0 false).snake.body :=
  C6_apple_off_body (Game.mk Snake.reset (20, 20) 0 false)
    (Reachable.reset [(0, 0), (1, 1)] _ [] (by decide))

end SnakeGame
